import Mathlib

/-!
Verification development for the insights-ros-ingress upload pipeline.

We shallowly embed the pure logic of the Go source:
  * `goClean`, `goJoin`, `goBase` model `path/filepath.Clean`, `Join` and
    `Base` on Unix paths (lexical path processing, as in the Go standard
    library).
  * `extractTarGz` models the extraction loop of
    `PayloadExtractor.extractTarGz` over a list of tar headers: the
    destination path computation, the `strings.HasPrefix` security check,
    and the per-type-flag dispatch.  Filesystem effects are recorded as
    lists of written file paths and created directories.
  * `findAndParseManifest`, `identifyROSFiles` and `ExtractPayload` model
    the manifest location/validation and ROS-file selection stages; file
    reading and JSON decoding are abstracted by a `parse` oracle, and
    `os.Stat` by a `statOk` oracle.
  * `processUpload` models the orchestrator in `internal/upload/handler.go`
    with oracles for the storage client, the Kafka producer and the
    context-supplied token.
  * `storageUpload` models `Client.Upload` of `internal/storage/minio.go`
    with oracles for `PutObject` and presigned-URL generation, and
    `GenerateUploadPath` is embedded directly.
-/

/-- `p` is a prefix of `s`, character by character (the semantics of
`strings.HasPrefix`), defined by structural recursion so concrete instances
evaluate in the kernel. -/
def isPrefixList : List Char → List Char → Bool
  | [], _ => true
  | _ :: _, [] => false
  | a :: as, b :: bs => a == b && isPrefixList as bs

/-- Model of `strings.HasPrefix(s, p)`. -/
def goHasPrefix (s p : String) : Bool := isPrefixList p.data s.data

/-- Split a character list on a separator, the semantics of
`strings.Split` with a one-character separator. -/
def splitChars (sep : Char) : List Char → List (List Char)
  | [] => [[]]
  | c :: rest =>
    let r := splitChars sep rest
    if c == sep then [] :: r
    else
      match r with
      | h :: t => (c :: h) :: t
      | [] => [[c]]

/-- Join path components with `/`, modelling `strings.Join(elems, "/")`. -/
def slashJoinChars : List (List Char) → List Char
  | [] => []
  | [a] => a
  | a :: b :: rest => a ++ '/' :: slashJoinChars (b :: rest)

/-- One step of the lexical cleaning loop of `filepath.Clean`: the stack of
kept path elements is in reverse order (head is the most recent element). -/
def cleanStep (rooted : Bool) (stack : List (List Char)) (c : List Char) :
    List (List Char) :=
  if c = [] ∨ c = ['.'] then stack
  else if c = ['.', '.'] then
    match stack with
    | [] => if rooted then [] else [['.', '.']]
    | top :: rest => if top = ['.', '.'] then ['.', '.'] :: top :: rest else rest
  else c :: stack

/-- The cleaning loop of `filepath.Clean` over the path's characters. -/
def goCleanChars (path : List Char) : List Char :=
  let rooted := match path with | '/' :: _ => true | _ => false
  let stack := (splitChars '/' path).foldl (cleanStep rooted) []
  let body := slashJoinChars stack.reverse
  if rooted then
    if body = [] then ['/'] else '/' :: body
  else
    if body = [] then ['.'] else body

/-- Model of Go `path/filepath.Clean` (Unix): shortest lexical equivalent
path, eliminating `.`, empty and `..` elements. -/
def goClean (path : String) : String :=
  if path = "" then "." else String.mk (goCleanChars path.data)

/-- Model of Go `path/filepath.Join`: drop leading empty elements, join the
rest with `/` and clean the result. -/
def goJoin : List String → String
  | [] => ""
  | e :: rest =>
    if e = "" then goJoin rest
    else goClean (String.mk (slashJoinChars ((e :: rest).map String.data)))

/-- Binary join, the common case `filepath.Join(a, b)`. -/
def goJoin2 (a b : String) : String := goJoin [a, b]

/-- Model of Go `path/filepath.Base` (Unix): the last element of the path
after removing trailing separators. -/
def goBase (path : String) : String :=
  if path = "" then "."
  else
    let stripped := (path.data.reverse.dropWhile (fun c => c == '/')).reverse
    if stripped = [] then "/"
    else
      match (splitChars '/' stripped).getLast? with
      | some s => String.mk s
      | none => "/"

/-- Tar header type flags as discriminated by `extractTarGz`: `tar.TypeDir`,
`tar.TypeReg`, and the `default` branch for every other flag. -/
inductive TypeFlag where
  | dir
  | reg
  | other
  deriving DecidableEq, Repr

/-- A tar archive entry: header name and type flag (the only header fields
the extraction logic inspects besides the file mode). -/
structure TarEntry where
  name : String
  typeflag : TypeFlag
  deriving DecidableEq, Repr

/-- Filesystem effects and the return value of `extractTarGz`:
`extractedNames` is the returned `[]string` of extracted regular-file entry
names, `writtenFiles` the absolute paths of regular files written to disk,
`createdDirs` the absolute paths of directories created for `tar.TypeDir`
entries. -/
structure ExtractResult where
  extractedNames : List String
  writtenFiles : List String
  createdDirs : List String
  deriving DecidableEq, Repr

/-- Model of `PayloadExtractor.extractTarGz`: for each header, compute
`filePath := filepath.Join(destDir, header.Name)`, skip the entry unless
`strings.HasPrefix(filePath, destDir)`, then dispatch on the type flag:
directories are created, regular files are written and their header name
appended to the returned list, all other types are skipped. -/
def extractTarGz : List TarEntry → String → ExtractResult
  | [], _ => ⟨[], [], []⟩
  | e :: rest, destDir =>
    let filePath := goJoin2 destDir e.name
    if goHasPrefix filePath destDir then
      match e.typeflag with
      | .dir =>
        let r := extractTarGz rest destDir
        ⟨r.extractedNames, r.writtenFiles, filePath :: r.createdDirs⟩
      | .reg =>
        let r := extractTarGz rest destDir
        ⟨e.name :: r.extractedNames, filePath :: r.writtenFiles, r.createdDirs⟩
      | .other => extractTarGz rest destDir
    else extractTarGz rest destDir

/-- Predicate used to *state* containment: `p` is the directory `d` itself
or lies strictly inside it (`d ++ "/"` is a prefix of `p`). -/
def pathWithin (d p : String) : Bool :=
  p == d || goHasPrefix p (d ++ "/")

/-- The manifest structure parsed from `manifest.json` (fields the pipeline
reads; `time.Time` values are modelled by their `Format("2006-01-02")`
rendering, which is the only way the code consumes them). -/
structure Manifest where
  uuid : String
  clusterID : String
  clusterAlias : String
  date : String
  files : List String
  resourceOptimizationFiles : List String
  operatorVersion : String
  deriving DecidableEq, Repr

/-- The error cases produced by the extraction pipeline, one constructor per
`fmt.Errorf` site in `ExtractPayload`, `findAndParseManifest` and
`identifyROSFiles`. -/
inductive ExtractError where
  | manifestNotFound
  | manifestParse (msg : String)
  | uuidMissing
  | clusterIDMissing
  | noROSFilesSpecified
  | noROSFilesFound
  deriving DecidableEq, Repr

/-- The manifest-location loop of `findAndParseManifest`: first extracted
file whose base name is exactly `manifest.json`. -/
def findManifest : List String → Option String
  | [] => none
  | f :: rest => if goBase f = "manifest.json" then some f else findManifest rest

/-- Model of `findAndParseManifest`: locate the manifest entry, read and
decode it through the `parse` oracle (standing for `os.ReadFile` +
`json.Unmarshal`), then validate the required `uuid` and `cluster_id`
fields. -/
def findAndParseManifest (parse : String → Except String Manifest)
    (extractedFiles : List String) (extractDir : String) : Except ExtractError Manifest :=
  match findManifest extractedFiles with
  | none => .error .manifestNotFound
  | some f =>
    match parse (goJoin2 extractDir f) with
    | .error e => .error (.manifestParse e)
    | .ok m =>
      if m.uuid = "" then .error .uuidMissing
      else if m.clusterID = "" then .error .clusterIDMissing
      else .ok m

/-- Go-map insertion on an association list: replace the value of an
existing key, otherwise append the new binding. -/
def mapInsert (l : List (String × String)) (k v : String) : List (String × String) :=
  match l with
  | [] => [(k, v)]
  | (k₀, v₀) :: rest => if k₀ = k then (k, v) :: rest else (k₀, v₀) :: mapInsert rest k v

/-- Go-map lookup on an association list. -/
def mapLookup (l : List (String × String)) (k : String) : Option String :=
  match l with
  | [] => none
  | (k₀, v₀) :: rest => if k₀ = k then some v₀ else mapLookup rest k

/-- The `extractedFileSet` map of `identifyROSFiles`: each extracted name
keyed by its base name, later entries overwriting earlier ones. -/
def buildFileSet (extractedFiles : List String) : List (String × String) :=
  extractedFiles.foldl (fun acc f => mapInsert acc (goBase f) f) []

/-- The selection loop of `identifyROSFiles`: for each declared ROS file
name, take it when a matching extracted entry exists and `os.Stat` (the
`statOk` oracle) succeeds on its full path; otherwise drop it. -/
def selectROSFiles (statOk : String → Bool) (fileSet : List (String × String))
    (extractDir : String) (names : List String) : List (String × String) :=
  names.foldl
    (fun acc n =>
      match mapLookup fileSet n with
      | some f =>
        if statOk (goJoin2 extractDir f) then mapInsert acc n (goJoin2 extractDir f) else acc
      | none => acc)
    []

/-- Model of `identifyROSFiles`: fail when the manifest declares no ROS
files, intersect the declared list with the extracted entries by base name,
and fail when the resulting map is empty. -/
def identifyROSFiles (statOk : String → Bool) (m : Manifest)
    (extractedFiles : List String) (extractDir : String) :
    Except ExtractError (List (String × String)) :=
  if m.resourceOptimizationFiles.isEmpty then .error .noROSFilesSpecified
  else
    let rosFiles := selectROSFiles statOk (buildFileSet extractedFiles) extractDir
      m.resourceOptimizationFiles
    if rosFiles.isEmpty then .error .noROSFilesFound else .ok rosFiles

/-- The `ExtractedPayload` returned on success: manifest, selected ROS
files (name ↦ full path), extraction directory and request id. -/
structure ExtractedPayload where
  manifest : Manifest
  rosFiles : List (String × String)
  tempDir : String
  requestID : String
  deriving Repr

/-- Oracles for the effectful steps inside `ExtractPayload`. -/
structure PayloadEnv where
  parse : String → Except String Manifest
  statOk : String → Bool

/-- Result of `ExtractPayload` together with whether the request-scoped
extraction directory still exists when it returns (`cleanup` sets it to
`false`; on success the directory is left for the caller's deferred
`Cleanup`). -/
structure PayloadResult where
  result : Except ExtractError ExtractedPayload
  dirExists : Bool

/-- Model of `PayloadExtractor.ExtractPayload`: create the extraction
directory `filepath.Join(tempDir, requestID)`, extract the archive, locate
and validate the manifest, and select the ROS files, calling `cleanup`
(removing the directory) on every error path. -/
def ExtractPayload (env : PayloadEnv) (tempDir : String) (entries : List TarEntry)
    (requestID : String) : PayloadResult :=
  let extractDir := goJoin2 tempDir requestID
  let ext := extractTarGz entries extractDir
  match findAndParseManifest env.parse ext.extractedNames extractDir with
  | .error e => ⟨.error e, false⟩
  | .ok m =>
    match identifyROSFiles env.statOk m ext.extractedNames extractDir with
    | .error e => ⟨.error e, false⟩
    | .ok ros => ⟨.ok ⟨m, ros, extractDir, requestID⟩, true⟩

/-- The storage configuration fields `Client.Upload` reads. -/
structure StorageConfig where
  bucket : String
  endpoint : String
  useSSL : Bool
  pathPrefix : String

/-- A file upload request as built by the handler (`storage.UploadRequest`;
the `Data` reader is not part of the pure model). -/
structure UploadRequest where
  key : String
  size : Int
  contentType : String
  metadata : List (String × String)
  deriving DecidableEq, Repr

/-- The result of a storage upload (`storage.UploadResult`). -/
structure UploadResult where
  key : String
  url : String
  presignedURL : String
  size : Int
  etag : String
  deriving DecidableEq, Repr

/-- What `minio.Client.PutObject` reports on success. -/
structure PutInfo where
  size : Int
  etag : String
  deriving DecidableEq, Repr

/-- Oracles for the MinIO SDK calls made by `Client.Upload`: `putObject`
stands for `PutObject` on the configured bucket at the given key, and
`presign` for `PresignedGetObject` at the given key. -/
structure StorageEnv where
  putObject : String → Except String PutInfo
  presign : String → Except String String

/-- Model of `Client.GenerateUploadPath`:
`filepath.Join(schema, "source="+sourceID, "date="+date, filename)`. -/
def GenerateUploadPath (schema sourceID date filename : String) : String :=
  goJoin [schema, "source=" ++ sourceID, "date=" ++ date, filename]

/-- Model of `Client.getEndpointURL`. -/
def getEndpointURL (cfg : StorageConfig) : String :=
  (if cfg.useSSL then "https" else "http") ++ "://" ++ cfg.endpoint

/-- Model of `Client.GeneratePresignedURL`: wraps the SDK presign call's
error. -/
def GeneratePresignedURL (env : StorageEnv) (key : String) : Except String String :=
  match env.presign key with
  | .error e => .error ("failed to generate presigned URL: " ++ e)
  | .ok u => .ok u

/-- The object key `Client.Upload` actually writes: the request key, put
under the configured path prefix when one is set. -/
def effectiveKey (cfg : StorageConfig) (reqKey : String) : String :=
  if cfg.pathPrefix ≠ "" then goJoin2 cfg.pathPrefix reqKey else reqKey

/-- Model of `Client.Upload`: apply the configured path prefix, put the
object, then generate a presigned URL; a presign failure is only logged and
the zero-value URL (`""`) is carried in the successful result. -/
def storageUpload (cfg : StorageConfig) (env : StorageEnv) (req : UploadRequest) :
    Except String UploadResult :=
  let key := effectiveKey cfg req.key
  match env.putObject key with
  | .error e => .error ("failed to upload to MinIO: " ++ e)
  | .ok info =>
    let presignedURL :=
      match GeneratePresignedURL env key with
      | .error _ => ""
      | .ok u => u
    .ok ⟨key, getEndpointURL cfg ++ "/" ++ cfg.bucket ++ "/" ++ key, presignedURL,
      info.size, info.etag⟩

/-- The identity fields the handler reads from the platform middleware
identity. -/
structure Identity where
  accountNumber : String
  orgID : String
  internalOrgID : String
  deriving DecidableEq, Repr

/-- Model of `Handler.getSchemaName`. -/
def getSchemaName (identity : Option Identity) : String :=
  match identity with
  | some id => if id.orgID ≠ "" then "org_" ++ id.orgID else "default"
  | none => "default"

/-- Model of `Handler.getAccountID`. -/
def getAccountID (identity : Option Identity) : String :=
  match identity with
  | some id => id.accountNumber
  | none => "unknown"

/-- Model of `Handler.getOrgID`. -/
def getOrgID (identity : Option Identity) : String :=
  match identity with
  | some id => if id.orgID = "" then id.internalOrgID else id.orgID
  | none => "unknown"

/-- Model of `Handler.getClusterAlias`: prefer the explicit alias, fall back
to the cluster id. -/
def getClusterAlias (m : Manifest) : String :=
  if m.clusterAlias ≠ "" then m.clusterAlias else m.clusterID

/-- Metadata of the published ROS event (`messaging.ROSMetadata`). -/
structure ROSMetadata where
  account : String
  orgID : String
  sourceID : String
  providerUUID : String
  clusterUUID : String
  clusterAlias : String
  operatorVersion : String
  deriving DecidableEq, Repr

/-- The published ROS event (`messaging.ROSMessage`): `files` carries the
presigned URLs, `objectKeys` the canonical storage keys. -/
structure ROSMessage where
  requestID : String
  b64Identity : String
  metadata : ROSMetadata
  files : List String
  objectKeys : List String
  deriving DecidableEq, Repr

/-- The error cases of `processUpload`, one constructor per `return
fmt.Errorf` site; `uploadFailed` records the name of the failing file. -/
inductive ProcError where
  | extractFailed (msg : String)
  | noROSFiles
  | openFailed (file : String)
  | statFailed (file : String)
  | uploadFailed (file : String) (msg : String)
  | tokenFailed (msg : String)
  | sendROSFailed (msg : String)
  deriving DecidableEq, Repr

/-- Oracles for the effectful collaborators of `processUpload`: the result
of `ExtractPayload`, `os.Open`/`Stat` on extracted files, the storage
client's `Upload`, the context token lookup, and the two Kafka sends. -/
structure HandlerEnv where
  extract : Except String ExtractedPayload
  openOk : String → Bool
  statSize : String → Option Int
  upload : UploadRequest → Except String UploadResult
  token : Except String String
  sendROS : ROSMessage → Except String Unit
  sendValidation : String → String → Except String Unit

/-- Observable outcome of `processUpload`: the returned error (`none` =
`nil`), the storage keys of objects actually uploaded (never rolled back),
the ROS event that was delivered, and whether the validation message was
delivered. -/
structure ProcessResult where
  err : Option ProcError
  storedKeys : List String
  rosPublished : Option ROSMessage
  validationSent : Bool
  deriving Repr

/-- The upload request the handler builds for one ROS file. -/
def buildUploadRequest (schema sourceID date uuid clusterID opVersion requestID
    fileName : String) (size : Int) : UploadRequest :=
  ⟨GenerateUploadPath schema sourceID date fileName, size, "text/csv",
    [("ManifestId", uuid), ("RequestId", requestID), ("ClusterUuid", clusterID),
      ("OperatorVersion", opVersion)]⟩

/-- The per-file upload loop of `processUpload`: open and stat each ROS
file, upload it, and accumulate the presigned URLs and object keys; the
first failure aborts the loop, keeping what was already uploaded. -/
def uploadROSFiles (env : HandlerEnv)
    (schema sourceID date uuid clusterID opVersion requestID : String) :
    List (String × String) → List String → List String →
    Except ProcError Unit × List String × List String
  | [], urls, keys => (.ok (), urls, keys)
  | (fileName, filePath) :: rest, urls, keys =>
    if env.openOk filePath = false then (.error (.openFailed fileName), urls, keys)
    else
      match env.statSize filePath with
      | none => (.error (.statFailed fileName), urls, keys)
      | some size =>
        match env.upload (buildUploadRequest schema sourceID date uuid clusterID
          opVersion requestID fileName size) with
        | .error e => (.error (.uploadFailed fileName e), urls, keys)
        | .ok r =>
          uploadROSFiles env schema sourceID date uuid clusterID opVersion requestID
            rest (urls ++ [r.presignedURL]) (keys ++ [r.key])

/-- Model of `Handler.processUpload`: extract the payload, upload every
selected ROS file, fetch the OAuth token, publish the ROS event, and send
the best-effort validation message (whose failure is only logged). -/
def processUpload (env : HandlerEnv) (requestID : String) (identity : Option Identity) :
    ProcessResult :=
  match env.extract with
  | .error e => ⟨some (.extractFailed e), [], none, false⟩
  | .ok payload =>
    if payload.rosFiles.isEmpty then ⟨some .noROSFiles, [], none, false⟩
    else
      let m := payload.manifest
      match uploadROSFiles env (getSchemaName identity) m.clusterID m.date m.uuid
        m.clusterID m.operatorVersion requestID payload.rosFiles [] [] with
      | (.error pe, _, keys) => ⟨some pe, keys, none, false⟩
      | (.ok _, urls, keys) =>
        match env.token with
        | .error e => ⟨some (.tokenFailed e), keys, none, false⟩
        | .ok tok =>
          let msg : ROSMessage :=
            ⟨requestID, tok,
              ⟨getAccountID identity, getOrgID identity, m.clusterID, m.clusterID,
                m.clusterID, getClusterAlias m, m.operatorVersion⟩,
              urls, keys⟩
          match env.sendROS msg with
          | .error e => ⟨some (.sendROSFailed e), keys, none, false⟩
          | .ok _ =>
            match env.sendValidation requestID "success" with
            | .error _ => ⟨none, keys, some msg, false⟩
            | .ok _ => ⟨none, keys, some msg, true⟩

/-- Claim C1 (code bug evidence): the entry `../req1-evil` extracted into
destination directory `/tmp/extract/req1` resolves to the sibling path
`/tmp/extract/req1-evil`, which passes the `strings.HasPrefix` security
check and is written to disk although it lies outside the extraction
directory. -/
theorem extractTarGz_writes_outside_extractDir :
    (extractTarGz [⟨"../req1-evil", .reg⟩] "/tmp/extract/req1").writtenFiles =
      ["/tmp/extract/req1-evil"] ∧
    pathWithin "/tmp/extract/req1" "/tmp/extract/req1-evil" = false := by
  constructor
  · decide
  · decide

/-- Claim C10 (counterexample): an archive whose single entry is the
regular file `../../etc/passwd` yields an empty extracted-name list, so the
returned list is not "exactly the regular-file entries of the archive". -/
theorem extractTarGz_regular_traversal_not_listed :
    (extractTarGz [⟨"../../etc/passwd", .reg⟩] "/tmp/extract/req1").extractedNames ≠
      (([⟨"../../etc/passwd", .reg⟩] : List TarEntry).filter
        (fun e => e.typeflag == TypeFlag.reg)).map TarEntry.name := by
  decide

/-- Claim C10 (amended): the name list returned by `extractTarGz` is exactly
the regular-file entries that pass the path-prefix security check, in
archive order, and the directories created on disk are exactly the
checked directory entries; symlinks, devices and other types never
contribute to either. -/
theorem extractTarGz_extractedNames_spec (entries : List TarEntry) (destDir : String) :
    (extractTarGz entries destDir).extractedNames =
      (entries.filter (fun e =>
        goHasPrefix (goJoin2 destDir e.name) destDir &&
          e.typeflag == TypeFlag.reg)).map TarEntry.name ∧
    (extractTarGz entries destDir).createdDirs =
      (entries.filter (fun e =>
        goHasPrefix (goJoin2 destDir e.name) destDir &&
          e.typeflag == TypeFlag.dir)).map (fun e => goJoin2 destDir e.name) := by
  induction entries with
  | nil => exact ⟨rfl, rfl⟩
  | cons e rest ih =>
    obtain ⟨ih1, ih2⟩ := ih
    by_cases h : goHasPrefix (goJoin2 destDir e.name) destDir = true
    · cases hf : e.typeflag <;>
        simp [extractTarGz, h, hf, ih1, ih2, List.filter_cons]
    · rw [Bool.not_eq_true] at h
      simp [extractTarGz, h, ih1, ih2, List.filter_cons]

/-- When no extracted file has base name `manifest.json`, the location loop
finds nothing. -/
theorem findManifest_eq_none (files : List String)
    (h : ∀ f ∈ files, goBase f ≠ "manifest.json") : findManifest files = none := by
  induction files with
  | nil => rfl
  | cons f rest ih =>
    rw [findManifest, if_neg (h f (List.mem_cons_self f rest))]
    exact ih fun g hg => h g (List.mem_cons_of_mem f hg)

/-- Claim C2: when no extracted entry's base name is exactly
`manifest.json`, `ExtractPayload` fails with the manifest-not-found error
and the request-scoped extraction directory has been removed when it
returns. -/
theorem ExtractPayload_manifest_missing (env : PayloadEnv) (tempDir : String)
    (entries : List TarEntry) (requestID : String)
    (h : ∀ f ∈ (extractTarGz entries (goJoin2 tempDir requestID)).extractedNames,
      goBase f ≠ "manifest.json") :
    (ExtractPayload env tempDir entries requestID).result =
      .error .manifestNotFound ∧
    (ExtractPayload env tempDir entries requestID).dirExists = false := by
  have hf := findManifest_eq_none _ h
  constructor <;> simp [ExtractPayload, findAndParseManifest, hf]

/-- Concrete instance of `ExtractPayload_manifest_missing`: an archive whose
only entry is `notes.txt`. -/
theorem ExtractPayload_manifest_missing_witness :
    (ExtractPayload ⟨fun _ => .error "unreadable", fun _ => true⟩ "/tmp"
      [⟨"notes.txt", .reg⟩] "r1").result = .error .manifestNotFound ∧
    (ExtractPayload ⟨fun _ => .error "unreadable", fun _ => true⟩ "/tmp"
      [⟨"notes.txt", .reg⟩] "r1").dirExists = false :=
  ExtractPayload_manifest_missing _ _ _ _ (by decide)

/-- A result of `findAndParseManifest` is a *validation* error when it is
one of the two required-field failures. -/
def isValidationError (r : Except ExtractError Manifest) : Prop :=
  r = .error .uuidMissing ∨ r = .error .clusterIDMissing

/-- Claim C8: once the manifest file is located and parses, the result of
`findAndParseManifest` is a validation error exactly when the `uuid` field
or the `cluster_id` field is empty, and otherwise it is the parsed
manifest itself. -/
theorem findAndParseManifest_validation (parse : String → Except String Manifest)
    (files : List String) (dir f : String) (m : Manifest)
    (hfind : findManifest files = some f)
    (hparse : parse (goJoin2 dir f) = .ok m) :
    (isValidationError (findAndParseManifest parse files dir) ↔
      (m.uuid = "" ∨ m.clusterID = "")) ∧
    (m.uuid ≠ "" → m.clusterID ≠ "" →
      findAndParseManifest parse files dir = .ok m) := by
  have hred : findAndParseManifest parse files dir =
      (if m.uuid = "" then .error .uuidMissing
        else if m.clusterID = "" then .error .clusterIDMissing else .ok m) := by
    unfold findAndParseManifest
    rw [hfind]
    simp only [hparse]
  rw [hred]
  by_cases h1 : m.uuid = "" <;> by_cases h2 : m.clusterID = "" <;>
    simp [isValidationError, h1, h2]

/-- Concrete instance of `findAndParseManifest_validation`: a manifest with
both required fields present. -/
theorem findAndParseManifest_validation_witness :
    (isValidationError (findAndParseManifest
        (fun _ => .ok ⟨"u1", "c1", "", "2024-01-01", [], ["cost.csv"], "v1"⟩)
        ["manifest.json"] "/tmp/r1") ↔
      (("u1" : String) = "" ∨ ("c1" : String) = "")) ∧
    (("u1" : String) ≠ "" → ("c1" : String) ≠ "" →
      findAndParseManifest
        (fun _ => .ok ⟨"u1", "c1", "", "2024-01-01", [], ["cost.csv"], "v1"⟩)
        ["manifest.json"] "/tmp/r1" =
          .ok ⟨"u1", "c1", "", "2024-01-01", [], ["cost.csv"], "v1"⟩) :=
  findAndParseManifest_validation
    (fun _ => .ok ⟨"u1", "c1", "", "2024-01-01", [], ["cost.csv"], "v1"⟩)
    ["manifest.json"] "/tmp/r1" "manifest.json"
    ⟨"u1", "c1", "", "2024-01-01", [], ["cost.csv"], "v1"⟩ (by decide) rfl

/-- Looking up after a Go-map insertion: the inserted key maps to the new
value, every other key is unaffected. -/
theorem mapLookup_mapInsert (l : List (String × String)) (k v k' : String) :
    mapLookup (mapInsert l k v) k' = if k = k' then some v else mapLookup l k' := by
  induction l with
  | nil => simp [mapInsert, mapLookup]
  | cons kv rest ih =>
    obtain ⟨k₀, v₀⟩ := kv
    by_cases h : k₀ = k
    · subst h
      by_cases h' : k₀ = k' <;> simp [mapInsert, mapLookup, h']
    · by_cases h' : k₀ = k'
      · subst h'
        simp [mapInsert, mapLookup, h]
        rw [if_neg (fun hh => h hh.symm)]
      · simp [mapInsert, mapLookup, h, h', ih]

/-- A Go-map insertion never produces the empty map. -/
theorem mapInsert_ne_nil (l : List (String × String)) (k v : String) :
    mapInsert l k v ≠ [] := by
  cases l with
  | nil => simp [mapInsert]
  | cons kv rest =>
    obtain ⟨k₀, v₀⟩ := kv
    by_cases h : k₀ = k <;> simp [mapInsert, h]

/-- Membership in the `extractedFileSet` map built by `identifyROSFiles`:
a key is present exactly when some extracted file has it as base name. -/
theorem mapLookup_buildFileSet (files : List String) (acc : List (String × String))
    (n : String) :
    (mapLookup (files.foldl (fun a f => mapInsert a (goBase f) f) acc) n).isSome =
      ((mapLookup acc n).isSome || files.any (fun f => goBase f == n)) := by
  induction files generalizing acc with
  | nil => simp
  | cons f rest ih =>
    rw [List.foldl_cons, ih, List.any_cons]
    by_cases h : goBase f = n
    · simp [mapLookup_mapInsert, h]
    · have hb : (goBase f == n) = false := by simp [h]
      simp [mapLookup_mapInsert, h, hb]

/-- The selection fold of `identifyROSFiles` ends empty exactly when it
started empty and no declared name has a matching extracted entry
(assuming `os.Stat` succeeds on extracted files). -/
theorem selectROSFiles_fold_eq_nil (statOk : String → Bool)
    (fileSet : List (String × String)) (dir : String)
    (hstat : ∀ p, statOk p = true) (names : List String)
    (acc : List (String × String)) :
    names.foldl
      (fun a n =>
        match mapLookup fileSet n with
        | some f =>
          if statOk (goJoin2 dir f) then mapInsert a n (goJoin2 dir f) else a
        | none => a)
      acc = [] ↔
      (acc = [] ∧ ∀ n ∈ names, mapLookup fileSet n = none) := by
  induction names generalizing acc with
  | nil => simp
  | cons n rest ih =>
    rw [List.foldl_cons, ih]
    cases hl : mapLookup fileSet n with
    | none => simp [hl]
    | some f =>
      simp only [hl, hstat (goJoin2 dir f), if_true]
      constructor
      · rintro ⟨hnil, -⟩
        exact absurd hnil (mapInsert_ne_nil acc n (goJoin2 dir f))
      · rintro ⟨-, hall⟩
        have hc := hall n (List.mem_cons_self n rest)
        rw [hl] at hc
        exact absurd hc (by simp)

/-- Claim C3: `identifyROSFiles` fails exactly when the intersection of the
manifest's `resource_optimization_files` list with the extracted entries
(matched by base name) is empty — including the empty declared list — and
a declared file with no matching extracted entry is merely dropped, not
fatal, whenever some other declared file matches. -/
theorem identifyROSFiles_error_iff (statOk : String → Bool) (m : Manifest)
    (extractedFiles : List String) (extractDir : String)
    (hstat : ∀ p, statOk p = true) :
    (∃ e, identifyROSFiles statOk m extractedFiles extractDir = .error e) ↔
      ∀ n ∈ m.resourceOptimizationFiles, ∀ f ∈ extractedFiles, goBase f ≠ n := by
  have hset : ∀ n, mapLookup (buildFileSet extractedFiles) n = none ↔
      ∀ f ∈ extractedFiles, goBase f ≠ n := by
    intro n
    have hs := mapLookup_buildFileSet extractedFiles [] n
    rw [show mapLookup [] n = none from rfl, Option.isSome_none, Bool.false_or,
      show List.foldl (fun a f => mapInsert a (goBase f) f) [] extractedFiles =
        buildFileSet extractedFiles from rfl] at hs
    cases ho : mapLookup (buildFileSet extractedFiles) n with
    | none =>
      rw [ho, Option.isSome_none] at hs
      constructor
      · intro _ f hf
        have hx := List.any_eq_false.mp hs.symm f hf
        simpa using hx
      · intro _
        rfl
    | some v =>
      rw [ho, Option.isSome_some] at hs
      constructor
      · intro hco
        exact absurd hco (by simp)
      · intro hall
        obtain ⟨f, hf, hp⟩ := List.any_eq_true.mp hs.symm
        exact absurd (by simpa using hp) (hall f hf)
  unfold identifyROSFiles
  cases hros : m.resourceOptimizationFiles with
  | nil => simp
  | cons n₀ restNames =>
    rw [List.isEmpty_cons]
    simp only [Bool.false_eq_true, if_false]
    have hsel : selectROSFiles statOk (buildFileSet extractedFiles) extractDir
        (n₀ :: restNames) = [] ↔
        (([] : List (String × String)) = [] ∧ ∀ n ∈ n₀ :: restNames,
          mapLookup (buildFileSet extractedFiles) n = none) :=
      selectROSFiles_fold_eq_nil statOk (buildFileSet extractedFiles)
        extractDir hstat (n₀ :: restNames) []
    constructor
    · rintro ⟨e, he⟩
      by_cases hempty : selectROSFiles statOk (buildFileSet extractedFiles) extractDir
          (n₀ :: restNames) = []
      · have hnone := (hsel.mp hempty).2
        intro n hn
        exact (hset n).mp (hnone n hn)
      · rw [if_neg (fun hc => hempty (List.isEmpty_iff.mp hc))] at he
        exact absurd he (by simp)
    · intro hall
      have hempty : selectROSFiles statOk (buildFileSet extractedFiles) extractDir
          (n₀ :: restNames) = [] := by
        refine hsel.mpr ⟨rfl, ?_⟩
        intro n hn
        exact (hset n).mpr (hall n hn)
      rw [if_pos (List.isEmpty_iff.mpr hempty)]
      exact ⟨.noROSFilesFound, rfl⟩

/-- Concrete instance of `identifyROSFiles_error_iff`: a manifest declaring
`cost.csv` while only `other.csv` was extracted. -/
theorem identifyROSFiles_error_iff_witness :
    (∃ e, identifyROSFiles (fun _ => true)
        ⟨"u1", "c1", "", "2024-01-01", [], ["cost.csv"], "v1"⟩
        ["other.csv"] "/tmp/r1" = .error e) ↔
      ∀ n ∈ (["cost.csv"] : List String), ∀ f ∈ (["other.csv"] : List String),
        goBase f ≠ n :=
  identifyROSFiles_error_iff (fun _ => true)
    ⟨"u1", "c1", "", "2024-01-01", [], ["cost.csv"], "v1"⟩
    ["other.csv"] "/tmp/r1" (fun _ => rfl)

/-- Claim C6 (counterexample): `GenerateUploadPath` goes through
`filepath.Join`, which *cleans* the joined path, so a filename containing a
`..` segment does not produce the literal
`{schema}/source={sourceID}/date={date}/{filename}` template. -/
theorem GenerateUploadPath_not_literal_template :
    GenerateUploadPath "org_1" "c1" "2024-01-02" "../x" ≠
      "org_1" ++ "/" ++ "source=" ++ "c1" ++ "/" ++ "date=" ++ "2024-01-02" ++
        "/" ++ "../x" := by
  decide

/-- Claim C6 (amended): for every tuple with a nonempty schema,
`GenerateUploadPath` returns `filepath.Clean` of the
`{schema}/source={sourceID}/date={date}/{filename}` template (equal to the
template itself whenever its components are clean path elements), and two
computations on the same tuple yield identical keys. -/
theorem GenerateUploadPath_form (schema sourceID date filename s₂ i₂ d₂ f₂ : String)
    (h : schema ≠ "") (hs : schema = s₂) (hi : sourceID = i₂) (hd : date = d₂)
    (hf : filename = f₂) :
    GenerateUploadPath schema sourceID date filename =
      goClean (schema ++ "/" ++ "source=" ++ sourceID ++ "/" ++ "date=" ++ date ++
        "/" ++ filename) ∧
    GenerateUploadPath schema sourceID date filename =
      GenerateUploadPath s₂ i₂ d₂ f₂ := by
  subst hs hi hd hf
  refine ⟨?_, rfl⟩
  unfold GenerateUploadPath goJoin
  rw [if_neg h]
  congr 1
  apply String.ext
  show slashJoinChars ([schema, "source=" ++ sourceID, "date=" ++ date,
      filename].map String.data) =
    (schema ++ "/" ++ "source=" ++ sourceID ++ "/" ++ "date=" ++ date ++
      "/" ++ filename).data
  simp only [List.map_cons, List.map_nil, slashJoinChars, String.data_append,
    show "/".data = ['/'] from rfl, List.append_assoc, List.singleton_append,
    List.cons_append, List.nil_append]

/-- Concrete instance of `GenerateUploadPath_form`. -/
theorem GenerateUploadPath_form_witness :
    GenerateUploadPath "org_1" "c1" "2024-01-02" "cost.csv" =
      goClean ("org_1" ++ "/" ++ "source=" ++ "c1" ++ "/" ++ "date=" ++
        "2024-01-02" ++ "/" ++ "cost.csv") ∧
    GenerateUploadPath "org_1" "c1" "2024-01-02" "cost.csv" =
      GenerateUploadPath "org_1" "c1" "2024-01-02" "cost.csv" :=
  GenerateUploadPath_form "org_1" "c1" "2024-01-02" "cost.csv"
    "org_1" "c1" "2024-01-02" "cost.csv" (by decide) rfl rfl rfl rfl

/-- Claim C7: when the object-store write succeeds, `Upload` returns a
successful result carrying the storage key even when presigned-URL
generation fails; the presign failure only leaves the URL field empty. -/
theorem storageUpload_ok_despite_presign_failure (cfg : StorageConfig)
    (env : StorageEnv) (req : UploadRequest) (info : PutInfo) (e : String)
    (hput : env.putObject (effectiveKey cfg req.key) = .ok info)
    (hpre : env.presign (effectiveKey cfg req.key) = .error e) :
    storageUpload cfg env req = .ok
      ⟨effectiveKey cfg req.key,
        getEndpointURL cfg ++ "/" ++ cfg.bucket ++ "/" ++ effectiveKey cfg req.key,
        "", info.size, info.etag⟩ := by
  unfold storageUpload GeneratePresignedURL
  simp only [hput, hpre]

/-- Concrete instance of `storageUpload_ok_despite_presign_failure`. -/
theorem storageUpload_ok_despite_presign_failure_witness :
    storageUpload ⟨"insights", "minio:9000", false, ""⟩
      ⟨fun _ => .ok ⟨10, "etag1"⟩, fun _ => .error "presign down"⟩
      ⟨"org_1/source=c1/date=2024-01-02/cost.csv", 10, "text/csv", []⟩ = .ok
      ⟨effectiveKey ⟨"insights", "minio:9000", false, ""⟩
          "org_1/source=c1/date=2024-01-02/cost.csv",
        getEndpointURL ⟨"insights", "minio:9000", false, ""⟩ ++ "/" ++ "insights" ++
          "/" ++ effectiveKey ⟨"insights", "minio:9000", false, ""⟩
            "org_1/source=c1/date=2024-01-02/cost.csv",
        "", 10, "etag1"⟩ :=
  storageUpload_ok_despite_presign_failure ⟨"insights", "minio:9000", false, ""⟩
    ⟨fun _ => .ok ⟨10, "etag1"⟩, fun _ => .error "presign down"⟩
    ⟨"org_1/source=c1/date=2024-01-02/cost.csv", 10, "text/csv", []⟩
    ⟨10, "etag1"⟩ "presign down" rfl rfl

/-- When opening, stat and upload succeed for every file (with results given
by `szFn` and `uFn`), the upload loop succeeds and appends one presigned URL
and one object key per file, in order. -/
theorem uploadROSFiles_ok (env : HandlerEnv)
    (schema sourceID date uuid clusterID opVersion requestID : String)
    (szFn : String → Int) (uFn : UploadRequest → UploadResult)
    (hopen : ∀ p, env.openOk p = true)
    (hstat : ∀ p, env.statSize p = some (szFn p))
    (hup : ∀ r, env.upload r = .ok (uFn r)) :
    ∀ (files : List (String × String)) (urls keys : List String),
      uploadROSFiles env schema sourceID date uuid clusterID opVersion requestID
        files urls keys =
      (.ok (),
        urls ++ files.map (fun fp =>
          (uFn (buildUploadRequest schema sourceID date uuid clusterID opVersion
            requestID fp.1 (szFn fp.2))).presignedURL),
        keys ++ files.map (fun fp =>
          (uFn (buildUploadRequest schema sourceID date uuid clusterID opVersion
            requestID fp.1 (szFn fp.2))).key)) := by
  intro files
  induction files with
  | nil =>
    intro urls keys
    simp [uploadROSFiles]
  | cons fp rest ih =>
    intro urls keys
    obtain ⟨f, p⟩ := fp
    have hcond : ¬(env.openOk p = false) := by rw [hopen p]; simp
    rw [uploadROSFiles, if_neg hcond]
    simp only [hstat p, hup]
    rw [ih]
    simp [List.append_assoc]

/-- Processing a block of files that all succeed reduces the upload loop to
the remaining files, with the block's URLs and keys appended. -/
theorem uploadROSFiles_prefix_ok (env : HandlerEnv)
    (schema sourceID date uuid clusterID opVersion requestID : String)
    (szFn : String → Int) (uFn : String × String → UploadResult) :
    ∀ (front rest : List (String × String)) (urls keys : List String),
      (∀ fp ∈ front, env.openOk fp.2 = true ∧ env.statSize fp.2 = some (szFn fp.2) ∧
        env.upload (buildUploadRequest schema sourceID date uuid clusterID opVersion
          requestID fp.1 (szFn fp.2)) = .ok (uFn fp)) →
      uploadROSFiles env schema sourceID date uuid clusterID opVersion requestID
        (front ++ rest) urls keys =
      uploadROSFiles env schema sourceID date uuid clusterID opVersion requestID
        rest (urls ++ front.map (fun fp => (uFn fp).presignedURL))
        (keys ++ front.map (fun fp => (uFn fp).key)) := by
  intro front
  induction front with
  | nil =>
    intro rest urls keys _
    simp
  | cons fp front' ih =>
    intro rest urls keys hf
    obtain ⟨f, p⟩ := fp
    obtain ⟨ho, hs, hu⟩ := hf (f, p) (List.mem_cons_self _ _)
    have hcond : ¬(env.openOk p = false) := by rw [ho]; simp
    rw [List.cons_append, uploadROSFiles, if_neg hcond]
    simp only [hs, hu]
    rw [ih rest _ _ (fun q hq => hf q (List.mem_cons_of_mem _ hq))]
    simp [List.append_assoc]

/-- Claim C4: when extraction, every file upload and the primary ROS event
publish succeed, `processUpload` returns success (`nil` error) even though
sending the secondary validation message fails. -/
theorem processUpload_ok_despite_validation_failure (env : HandlerEnv)
    (requestID : String) (identity : Option Identity) (payload : ExtractedPayload)
    (tok emsg : String)
    (hex : env.extract = .ok payload)
    (hne : payload.rosFiles ≠ [])
    (hopen : ∀ p, env.openOk p = true)
    (hstat : ∀ p, ∃ n, env.statSize p = some n)
    (hup : ∀ r, ∃ u, env.upload r = .ok u)
    (htok : env.token = .ok tok)
    (hros : ∀ m, env.sendROS m = .ok ())
    (hval : env.sendValidation requestID "success" = .error emsg) :
    (processUpload env requestID identity).err = none := by
  choose szFn hszFn using hstat
  choose uFn huFn using hup
  have hloop := uploadROSFiles_ok env (getSchemaName identity)
    payload.manifest.clusterID payload.manifest.date payload.manifest.uuid
    payload.manifest.clusterID payload.manifest.operatorVersion requestID
    szFn uFn hopen hszFn huFn payload.rosFiles [] []
  have hie : payload.rosFiles.isEmpty = false :=
    Bool.eq_false_iff.mpr (fun h => hne (List.isEmpty_iff.mp h))
  unfold processUpload
  simp only [hex, hie, Bool.false_eq_true, if_false, hloop, htok, hros, hval]

/-- A one-file extracted payload used to exercise the happy path. -/
def samplePayload : ExtractedPayload :=
  ⟨⟨"u1", "c1", "", "2024-01-01", [], ["cost.csv"], "v1"⟩,
    [("cost.csv", "/tmp/r1/cost.csv")], "/tmp/r1", "r1"⟩

/-- A storage double that succeeds on every upload request. -/
def sampleUpload : UploadRequest → UploadResult :=
  fun r => ⟨r.key, "url", "purl", 5, "etag"⟩

/-- Collaborator oracles for a run where everything succeeds except the
best-effort validation send. -/
def happyEnv : HandlerEnv :=
  ⟨.ok samplePayload, fun _ => true, fun _ => some 5,
    fun r => .ok (sampleUpload r), .ok "tok1",
    fun _ => .ok (), fun _ _ => .error "validation topic down"⟩

/-- Concrete instance of `processUpload_ok_despite_validation_failure`. -/
theorem processUpload_ok_despite_validation_failure_witness :
    (processUpload happyEnv "r1" none).err = none :=
  processUpload_ok_despite_validation_failure happyEnv "r1" none samplePayload
    "tok1" "validation topic down" rfl (by decide) (fun _ => rfl)
    (fun _ => ⟨5, rfl⟩) (fun r => ⟨sampleUpload r, rfl⟩) rfl (fun _ => rfl) rfl

/-- Claim C5: the first selected file whose upload fails aborts processing:
`processUpload` returns an error naming that file, no further file is
uploaded, neither the ROS event nor the validation message is published,
and the objects uploaded for the earlier files stay in storage. -/
theorem processUpload_upload_failure (env : HandlerEnv) (requestID : String)
    (identity : Option Identity) (payload : ExtractedPayload)
    (front post : List (String × String)) (fbad pbad emsg : String)
    (szFn : String → Int) (uFn : String × String → UploadResult)
    (hex : env.extract = .ok payload)
    (hfiles : payload.rosFiles = front ++ (fbad, pbad) :: post)
    (hfront : ∀ fp ∈ front, env.openOk fp.2 = true ∧
      env.statSize fp.2 = some (szFn fp.2) ∧
      env.upload (buildUploadRequest (getSchemaName identity)
        payload.manifest.clusterID payload.manifest.date payload.manifest.uuid
        payload.manifest.clusterID payload.manifest.operatorVersion requestID
        fp.1 (szFn fp.2)) = .ok (uFn fp))
    (hopenb : env.openOk pbad = true)
    (hstatb : env.statSize pbad = some (szFn pbad))
    (hupb : env.upload (buildUploadRequest (getSchemaName identity)
        payload.manifest.clusterID payload.manifest.date payload.manifest.uuid
        payload.manifest.clusterID payload.manifest.operatorVersion requestID
        fbad (szFn pbad)) = .error emsg) :
    (processUpload env requestID identity).err = some (.uploadFailed fbad emsg) ∧
    (processUpload env requestID identity).storedKeys =
      front.map (fun fp => (uFn fp).key) ∧
    (processUpload env requestID identity).rosPublished = none ∧
    (processUpload env requestID identity).validationSent = false := by
  have hie : (front ++ (fbad, pbad) :: post).isEmpty = false := by
    cases front <;> simp
  have hpre := uploadROSFiles_prefix_ok env (getSchemaName identity)
    payload.manifest.clusterID payload.manifest.date payload.manifest.uuid
    payload.manifest.clusterID payload.manifest.operatorVersion requestID
    szFn uFn front ((fbad, pbad) :: post) [] [] hfront
  have hcond : ¬(env.openOk pbad = false) := by rw [hopenb]; simp
  have hstep : uploadROSFiles env (getSchemaName identity)
      payload.manifest.clusterID payload.manifest.date payload.manifest.uuid
      payload.manifest.clusterID payload.manifest.operatorVersion requestID
      ((fbad, pbad) :: post)
      ([] ++ front.map (fun fp => (uFn fp).presignedURL))
      ([] ++ front.map (fun fp => (uFn fp).key)) =
      (.error (.uploadFailed fbad emsg),
        [] ++ front.map (fun fp => (uFn fp).presignedURL),
        [] ++ front.map (fun fp => (uFn fp).key)) := by
    rw [uploadROSFiles, if_neg hcond]
    simp only [hstatb, hupb]
  have hres : processUpload env requestID identity =
      ⟨some (.uploadFailed fbad emsg), front.map (fun fp => (uFn fp).key),
        none, false⟩ := by
    unfold processUpload
    simp only [hex, hfiles, hie, Bool.false_eq_true, if_false, hpre, hstep]
    simp only [List.nil_append]
  rw [hres]
  exact ⟨rfl, rfl, rfl, rfl⟩

/-- Two selected files where the upload of the second one fails. -/
def payloadAB : ExtractedPayload :=
  ⟨⟨"u1", "c1", "", "2024-01-01", [], ["a.csv", "b.csv"], "v1"⟩,
    [("a.csv", "/tmp/r1/a.csv"), ("b.csv", "/tmp/r1/b.csv")], "/tmp/r1", "r1"⟩

/-- The upload results the fault-free files of `payloadAB` produce. -/
def uFnAB : String × String → UploadResult :=
  fun fp => ⟨GenerateUploadPath "default" "c1" "2024-01-01" fp.1, "url", "purl",
    7, "etag"⟩

/-- Collaborator oracles injecting a storage fault for `b.csv` only. -/
def envAB : HandlerEnv :=
  ⟨.ok payloadAB, fun _ => true, fun _ => some 7,
    fun r => if r.key = GenerateUploadPath "default" "c1" "2024-01-01" "b.csv"
      then .error "disk full" else .ok ⟨r.key, "url", "purl", 7, "etag"⟩,
    .ok "tok1", fun _ => .ok (), fun _ _ => .ok ()⟩

/-- Concrete instance of `processUpload_upload_failure`: two selected files,
the second upload fails. -/
theorem processUpload_upload_failure_witness :
    (processUpload envAB "r1" none).err =
      some (.uploadFailed "b.csv" "disk full") ∧
    (processUpload envAB "r1" none).storedKeys =
      [("a.csv", "/tmp/r1/a.csv")].map (fun fp => (uFnAB fp).key) ∧
    (processUpload envAB "r1" none).rosPublished = none ∧
    (processUpload envAB "r1" none).validationSent = false :=
  processUpload_upload_failure envAB "r1" none payloadAB
    [("a.csv", "/tmp/r1/a.csv")] [] "b.csv" "/tmp/r1/b.csv" "disk full"
    (fun _ => 7) uFnAB rfl rfl
    (by
      intro fp hfp
      rw [List.mem_singleton] at hfp
      subst hfp
      exact ⟨rfl, rfl, rfl⟩)
    rfl rfl rfl

/-- Claim C9: on a fully successful run, the published ROS message carries
one presigned URL in `files` and one storage key in `object_keys` per
selected file, produced from the same per-file upload result at the same
position, so the two lists are index-aligned and of equal length. -/
theorem processUpload_parallel_lists (env : HandlerEnv) (requestID : String)
    (identity : Option Identity) (payload : ExtractedPayload) (tok : String)
    (szFn : String → Int) (uFn : UploadRequest → UploadResult)
    (hex : env.extract = .ok payload)
    (hne : payload.rosFiles ≠ [])
    (hopen : ∀ p, env.openOk p = true)
    (hstat : ∀ p, env.statSize p = some (szFn p))
    (hup : ∀ r, env.upload r = .ok (uFn r))
    (htok : env.token = .ok tok)
    (hros : ∀ m, env.sendROS m = .ok ()) :
    (processUpload env requestID identity).err = none ∧
    (processUpload env requestID identity).rosPublished =
      some ⟨requestID, tok,
        ⟨getAccountID identity, getOrgID identity, payload.manifest.clusterID,
          payload.manifest.clusterID, payload.manifest.clusterID,
          getClusterAlias payload.manifest, payload.manifest.operatorVersion⟩,
        payload.rosFiles.map (fun fp =>
          (uFn (buildUploadRequest (getSchemaName identity)
            payload.manifest.clusterID payload.manifest.date
            payload.manifest.uuid payload.manifest.clusterID
            payload.manifest.operatorVersion requestID fp.1
            (szFn fp.2))).presignedURL),
        payload.rosFiles.map (fun fp =>
          (uFn (buildUploadRequest (getSchemaName identity)
            payload.manifest.clusterID payload.manifest.date
            payload.manifest.uuid payload.manifest.clusterID
            payload.manifest.operatorVersion requestID fp.1
            (szFn fp.2))).key)⟩ ∧
    (payload.rosFiles.map (fun fp =>
      (uFn (buildUploadRequest (getSchemaName identity)
        payload.manifest.clusterID payload.manifest.date payload.manifest.uuid
        payload.manifest.clusterID payload.manifest.operatorVersion requestID
        fp.1 (szFn fp.2))).presignedURL)).length = payload.rosFiles.length ∧
    (payload.rosFiles.map (fun fp =>
      (uFn (buildUploadRequest (getSchemaName identity)
        payload.manifest.clusterID payload.manifest.date payload.manifest.uuid
        payload.manifest.clusterID payload.manifest.operatorVersion requestID
        fp.1 (szFn fp.2))).key)).length = payload.rosFiles.length := by
  have hloop := uploadROSFiles_ok env (getSchemaName identity)
    payload.manifest.clusterID payload.manifest.date payload.manifest.uuid
    payload.manifest.clusterID payload.manifest.operatorVersion requestID
    szFn uFn hopen hstat hup payload.rosFiles [] []
  have hie : payload.rosFiles.isEmpty = false :=
    Bool.eq_false_iff.mpr (fun h => hne (List.isEmpty_iff.mp h))
  have hres : (processUpload env requestID identity).err = none ∧
      (processUpload env requestID identity).rosPublished =
      some ⟨requestID, tok,
        ⟨getAccountID identity, getOrgID identity, payload.manifest.clusterID,
          payload.manifest.clusterID, payload.manifest.clusterID,
          getClusterAlias payload.manifest, payload.manifest.operatorVersion⟩,
        payload.rosFiles.map (fun fp =>
          (uFn (buildUploadRequest (getSchemaName identity)
            payload.manifest.clusterID payload.manifest.date
            payload.manifest.uuid payload.manifest.clusterID
            payload.manifest.operatorVersion requestID fp.1
            (szFn fp.2))).presignedURL),
        payload.rosFiles.map (fun fp =>
          (uFn (buildUploadRequest (getSchemaName identity)
            payload.manifest.clusterID payload.manifest.date
            payload.manifest.uuid payload.manifest.clusterID
            payload.manifest.operatorVersion requestID fp.1
            (szFn fp.2))).key)⟩ := by
    unfold processUpload
    simp only [hex, hie, Bool.false_eq_true, if_false, hloop, htok, hros,
      List.nil_append]
    cases hv : env.sendValidation requestID "success" with
    | error e => exact ⟨rfl, rfl⟩
    | ok u => exact ⟨rfl, rfl⟩
  exact ⟨hres.1, hres.2, List.length_map _ _, List.length_map _ _⟩

/-- Concrete instance of `processUpload_parallel_lists`. -/
theorem processUpload_parallel_lists_witness :
    (processUpload happyEnv "r1" none).err = none ∧
    (processUpload happyEnv "r1" none).rosPublished =
      some ⟨"r1", "tok1",
        ⟨getAccountID none, getOrgID none, samplePayload.manifest.clusterID,
          samplePayload.manifest.clusterID, samplePayload.manifest.clusterID,
          getClusterAlias samplePayload.manifest,
          samplePayload.manifest.operatorVersion⟩,
        samplePayload.rosFiles.map (fun fp =>
          (sampleUpload (buildUploadRequest (getSchemaName none)
            samplePayload.manifest.clusterID samplePayload.manifest.date
            samplePayload.manifest.uuid samplePayload.manifest.clusterID
            samplePayload.manifest.operatorVersion "r1" fp.1 5)).presignedURL),
        samplePayload.rosFiles.map (fun fp =>
          (sampleUpload (buildUploadRequest (getSchemaName none)
            samplePayload.manifest.clusterID samplePayload.manifest.date
            samplePayload.manifest.uuid samplePayload.manifest.clusterID
            samplePayload.manifest.operatorVersion "r1" fp.1 5)).key)⟩ ∧
    (samplePayload.rosFiles.map (fun fp =>
      (sampleUpload (buildUploadRequest (getSchemaName none)
        samplePayload.manifest.clusterID samplePayload.manifest.date
        samplePayload.manifest.uuid samplePayload.manifest.clusterID
        samplePayload.manifest.operatorVersion "r1" fp.1
        5)).presignedURL)).length = samplePayload.rosFiles.length ∧
    (samplePayload.rosFiles.map (fun fp =>
      (sampleUpload (buildUploadRequest (getSchemaName none)
        samplePayload.manifest.clusterID samplePayload.manifest.date
        samplePayload.manifest.uuid samplePayload.manifest.clusterID
        samplePayload.manifest.operatorVersion "r1" fp.1
        5)).key)).length = samplePayload.rosFiles.length :=
  processUpload_parallel_lists happyEnv "r1" none samplePayload "tok1"
    (fun _ => 5) sampleUpload rfl (by decide) (fun _ => rfl) (fun _ => rfl)
    (fun _ => rfl) rfl (fun _ => rfl)
